import Mathlib

/-!
A shallow embedding of the NexusEnroll university-enrollment system
(`src/main.py`) and proofs about its specified properties.

Python dictionaries are modelled as association lists over `String` keys
(`lookupA` reads the first matching entry, exactly like a dict whose keys
are unique; `setA` updates in place or appends; `modifyA` mutates the
value stored under a key, mirroring in-place mutation of the object held
by the dict).  Python integers are `Int`.  Wall-clock timestamps
(`datetime.now().isoformat()`) are modelled by an explicit `now : String`
parameter where a claim depends on them, and are elided from the
enrollment-history log, whose contents no endpoint ever reads back.
-/

set_option linter.unusedVariables false

namespace NexusEnroll

/-- First-match lookup in an association list (Python `dict.get`). -/
def lookupA {α : Type} (k : String) : List (String × α) → Option α
  | [] => none
  | (k', v) :: rest => if k' = k then some v else lookupA k rest

/-- Store a value under a key: replace the first matching entry, or append
a fresh entry (Python `d[k] = v`). -/
def setA {α : Type} (k : String) (v : α) : List (String × α) → List (String × α)
  | [] => [(k, v)]
  | (k', v') :: rest => if k' = k then (k, v) :: rest else (k', v') :: setA k v rest

/-- Mutate the value stored under a key in place (Python mutating the object
retrieved from a dict); a missing key leaves the list unchanged. -/
def modifyA {α : Type} (k : String) (f : α → α) : List (String × α) → List (String × α)
  | [] => []
  | (k', v) :: rest => if k' = k then (k', f v) :: rest else (k', v) :: modifyA k f rest

/-- The constant schedule attached to every `Course` by its constructor
(`src/main.py` line 29). -/
structure Schedule where
  days : List String
  time : String
  location : String
  deriving DecidableEq

def defaultSchedule : Schedule :=
  { days := ["Mon", "Wed"], time := "10:00-11:30", location := "Room 101" }

/-- `Course` (`src/main.py` lines 20-29). -/
structure Course where
  course_id : String
  name : String
  instructor : String
  capacity : Int
  enrolled : Int
  prerequisites : List String
  schedule : Schedule
  deriving DecidableEq

/-- The `Course` constructor: `prerequisites` defaults to the empty list and
`schedule` is always the same constant dictionary. -/
def mkCourse (course_id name instructor : String) (capacity enrolled : Int)
    (prerequisites : List String) : Course :=
  { course_id := course_id, name := name, instructor := instructor,
    capacity := capacity, enrolled := enrolled,
    prerequisites := prerequisites, schedule := defaultSchedule }

/-- One entry of a student's append-only enrollment history
(`src/main.py` lines 430-434; the wall-clock timestamp field is elided). -/
structure HistoryEntry where
  course_id : String
  action : String
  deriving DecidableEq

/-- Per-student record held by `StudentService.student_data`. -/
structure StudentRecord where
  completed_courses : List String
  current_courses : List String
  enrollment_history : List HistoryEntry
  deriving DecidableEq

/-- A single validator outcome (`{"valid": ..., "message": ...}`). -/
structure VResult where
  valid : Bool
  message : String
  deriving DecidableEq

/-- The context dictionary assembled by `enroll_student`
(`src/main.py` lines 407-411). -/
structure VCtx where
  course : Option Course
  student_completed_courses : List String
  student_current_courses : List String
  deriving DecidableEq

/-- `PrerequisiteValidationStrategy.validate` (`src/main.py` lines 188-203). -/
def prerequisiteValidate (student_id course_id : String) (ctx : VCtx) : VResult :=
  match ctx.course with
  | none => { valid := true, message := "No prerequisites required" }
  | some course =>
    if course.prerequisites.isEmpty then
      { valid := true, message := "No prerequisites required" }
    else
      let missing := course.prerequisites.filter
        (fun p => !(ctx.student_completed_courses.contains p))
      if missing.isEmpty then
        { valid := true, message := "Prerequisites satisfied" }
      else
        { valid := false,
          message := "Missing prerequisites: " ++ String.intercalate ", " missing }

/-- `CapacityValidationStrategy.validate` (`src/main.py` lines 205-215). -/
def capacityValidate (student_id course_id : String) (ctx : VCtx) : VResult :=
  match ctx.course with
  | none => { valid := false, message := "Course not found" }
  | some course =>
    if course.capacity ≤ course.enrolled then
      { valid := false, message := "Course is at full capacity" }
    else
      { valid := true, message := "Capacity available" }

/-- `ScheduleConflictValidationStrategy.validate` (`src/main.py` lines 217-231). -/
def scheduleConflictValidate (student_id course_id : String) (ctx : VCtx) : VResult :=
  match ctx.course with
  | none => { valid := false, message := "Course not found" }
  | some _ =>
    if 5 ≤ ctx.student_current_courses.length then
      { valid := false, message := "Schedule conflict: Maximum 5 courses allowed" }
    else
      { valid := true, message := "No schedule conflicts" }

/-- The three concrete `ValidationStrategy` subclasses of the source. -/
inductive Strategy where
  | prerequisite
  | capacity
  | scheduleConflict
  deriving DecidableEq

def runStrategy (st : Strategy) (student_id course_id : String) (ctx : VCtx) : VResult :=
  match st with
  | .prerequisite => prerequisiteValidate student_id course_id ctx
  | .capacity => capacityValidate student_id course_id ctx
  | .scheduleConflict => scheduleConflictValidate student_id course_id ctx

/-- `ValidationContext.validate_all` (`src/main.py` lines 240-247): run each
strategy in order, collect its result, and stop at the first invalid one. -/
def validate_all (strategies : List Strategy) (student_id course_id : String)
    (ctx : VCtx) : List VResult :=
  match strategies with
  | [] => []
  | st :: rest =>
    let result := runStrategy st student_id course_id ctx
    if result.valid then result :: validate_all rest student_id course_id ctx
    else [result]

/-- The in-memory state owned by `StudentService`. -/
structure StudentState where
  courses : List (String × Course)
  student_data : List (String × StudentRecord)
  deriving DecidableEq

/-- The seeded mock data of `StudentService.__init__` (`src/main.py` lines 358-370). -/
def studentSeed : StudentState :=
  { courses :=
      [("CS101", mkCourse "CS101" "Intro to Programming" "Dr. Smith" 30 25 []),
       ("CS201", mkCourse "CS201" "Data Structures" "Dr. Johnson" 25 20 ["CS101"]),
       ("CS301", mkCourse "CS301" "Algorithms" "Dr. Brown" 20 15 ["CS101", "CS201"])],
    student_data :=
      [("STU001",
        { completed_courses := ["CS101"], current_courses := ["CS201"],
          enrollment_history := [] })] }

/-- `self.student_data.get(student_id, \x7b\x7d).get("completed_courses", [])`. -/
def completedOf (s : StudentState) (student_id : String) : List String :=
  ((lookupA student_id s.student_data).map (·.completed_courses)).getD []

/-- `self.student_data.get(student_id, \x7b\x7d).get("current_courses", [])`. -/
def currentOf (s : StudentState) (student_id : String) : List String :=
  ((lookupA student_id s.student_data).map (·.current_courses)).getD []

/-- Outcome of `POST /enroll`. -/
inductive EnrollOutcome where
  | courseNotFound
  | validationFailed (results : List VResult) (message : String)
  | enrolled (results : List VResult) (message : String)
  deriving DecidableEq

/-- HTTP status of each `POST /enroll` outcome. -/
def enrollStatus : EnrollOutcome → Nat
  | .courseNotFound => 404
  | .validationFailed _ _ => 400
  | .enrolled _ _ => 200

def freshRecord : StudentRecord :=
  { completed_courses := [], current_courses := [], enrollment_history := [] }

/-- `POST /enroll` (`src/main.py` lines 386-448), for a well-typed payload.
Returns the post-request service state together with the response. -/
def enroll_student (s : StudentState) (student_id course_id : String) :
    StudentState × EnrollOutcome :=
  match lookupA course_id s.courses with
  | none => (s, .courseNotFound)
  | some course =>
    let strategies :=
      (if course.prerequisites.isEmpty then [] else [Strategy.prerequisite]) ++
        [Strategy.capacity, Strategy.scheduleConflict]
    let ctx : VCtx :=
      { course := some course,
        student_completed_courses := completedOf s student_id,
        student_current_courses := currentOf s student_id }
    let results := validate_all strategies student_id course_id ctx
    if results.all (·.valid) then
      let courses' := modifyA course_id
        (fun c => { c with enrolled := c.enrolled + 1 }) s.courses
      let sd₀ :=
        if (lookupA student_id s.student_data).isSome then s.student_data
        else setA student_id freshRecord s.student_data
      let sd₁ := modifyA student_id
        (fun r =>
          { r with
            current_courses := r.current_courses ++ [course_id],
            enrollment_history :=
              r.enrollment_history ++ [{ course_id := course_id, action := "enrolled" }] })
        sd₀
      ({ courses := courses', student_data := sd₁ },
       .enrolled results ("Successfully enrolled in " ++ course.name))
    else
      let failed := results.find? (fun r => !r.valid)
      (s, .validationFailed results ((failed.map (·.message)).getD ""))

/-- Outcome of `POST /drop`. -/
inductive DropOutcome where
  | courseNotFound
  | notEnrolled
  | dropped (message : String)
  deriving DecidableEq

/-- HTTP status of each `POST /drop` outcome. -/
def dropStatus : DropOutcome → Nat
  | .courseNotFound => 404
  | .notEnrolled => 400
  | .dropped _ => 200

/-- `POST /drop` (`src/main.py` lines 450-476), for a well-typed payload. -/
def drop_course (s : StudentState) (student_id course_id : String) :
    StudentState × DropOutcome :=
  match lookupA course_id s.courses with
  | none => (s, .courseNotFound)
  | some course =>
    match lookupA student_id s.student_data with
    | none => (s, .notEnrolled)
    | some record =>
      if course_id ∈ record.current_courses then
        let courses' := modifyA course_id
          (fun c => { c with enrolled := c.enrolled - 1 }) s.courses
        let sd' := modifyA student_id
          (fun r => { r with current_courses := r.current_courses.erase course_id })
          s.student_data
        ({ courses := courses', student_data := sd' },
         .dropped ("Successfully dropped " ++ course.name))
      else (s, .notEnrolled)

/-- A `POST /enroll` or `POST /drop` request against the student service. -/
inductive SOp where
  | enroll (student_id course_id : String)
  | drop (student_id course_id : String)
  deriving DecidableEq

def stepOp (s : StudentState) : SOp → StudentState
  | .enroll sid cid => (enroll_student s sid cid).1
  | .drop sid cid => (drop_course s sid cid).1

/-- Run a sequence of enroll/drop requests. -/
def runOps (ops : List SOp) (s : StudentState) : StudentState :=
  ops.foldl stepOp s

/-- Total number of occurrences of a course id across all students'
`current_courses` lists. -/
def countIn (cid : String) : List (String × StudentRecord) → Nat
  | [] => 0
  | p :: rest => p.2.current_courses.count cid + countIn cid rest

/-- The inductive invariant of the student service: every course reachable
through the course map has at least as many enrolled seats as there are
occurrences of it in students' current-course lists, and never exceeds its
capacity. -/
def StudentInv (s : StudentState) : Prop :=
  ∀ cid c, lookupA cid s.courses = some c →
    (countIn cid s.student_data : Int) ≤ c.enrolled ∧ c.enrolled ≤ c.capacity

/-- One entry of a grade batch (`\x7bstudent_id, grade\x7d`). -/
structure GradeEntry where
  student_id : String
  grade : String
  deriving DecidableEq

/-- Result dictionary returned by both grade-processing strategies. -/
structure Processed where
  scheme : String
  valid : Bool
  invalid_entries : List GradeEntry
  deriving DecidableEq

/-- `LetterGradeStrategy.VALID` (`src/main.py` line 257; a Python set used
only for membership, modelled as a list). -/
def letterVALID : List String :=
  ["A", "A-", "B+", "B", "B-", "C+", "C", "C-", "D", "F"]

/-- `PassFailGradeStrategy.VALID` (`src/main.py` line 268). -/
def passFailVALID : List String := ["P", "F"]

/-- `LetterGradeStrategy.process` (`src/main.py` lines 259-265). -/
def letterProcess (grades_data : List GradeEntry) : Processed :=
  let invalid := grades_data.filter (fun g => !(letterVALID.contains g.grade))
  { scheme := "letter", valid := invalid.length = 0, invalid_entries := invalid }

/-- `PassFailGradeStrategy.process` (`src/main.py` lines 270-276). -/
def passFailProcess (grades_data : List GradeEntry) : Processed :=
  let invalid := grades_data.filter (fun g => !(passFailVALID.contains g.grade))
  { scheme := "pass_fail", valid := invalid.length = 0, invalid_entries := invalid }

/-- The in-memory state owned by `FacultyService`: its course copies, the
per-course rosters, and the stored grades (course id → student id → grade). -/
structure FacultyState where
  courses : List (String × Course)
  rosters : List (String × List String)
  grades : List (String × List (String × String))
  deriving DecidableEq

/-- The seeded mock data of `FacultyService.__init__` (`src/main.py` lines 493-503). -/
def facultySeed : FacultyState :=
  { courses :=
      [("CS101", mkCourse "CS101" "Intro to Programming" "Dr. Smith" 30 25 []),
       ("CS201", mkCourse "CS201" "Data Structures" "Dr. Johnson" 25 20 [])],
    rosters :=
      [("CS101", ["STU001", "STU002", "STU003"]),
       ("CS201", ["STU001", "STU004", "STU005"])],
    grades := [] }

/-- Outcome of `POST /submit_grades`. -/
inductive GradesOutcome where
  | courseNotFound
  | invalidEntries (processing : Processed)
  | submitted (processing : Processed) (message : String)
  deriving DecidableEq

/-- HTTP status of each `POST /submit_grades` outcome. -/
def gradesStatus : GradesOutcome → Nat
  | .courseNotFound => 404
  | .invalidEntries _ => 400
  | .submitted _ _ => 200

/-- The `processing` dictionary carried by a `/submit_grades` response, when
the request reached grade processing. -/
def outcomeProcessed : GradesOutcome → Option Processed
  | .courseNotFound => none
  | .invalidEntries p => some p
  | .submitted p _ => some p

/-- Python `s.startswith(pre)`, computed on the character lists so that it
evaluates by kernel reduction. -/
def strStartsWith (s pre : String) : Bool := pre.data.isPrefixOf s.data

/-- `POST /submit_grades` (`src/main.py` lines 530-572), for a well-typed
payload: select the scheme from the course-id prefix, reject the whole batch
if any entry is illegal, otherwise store every grade of the batch. -/
def submit_grades (s : FacultyState) (course_id : String)
    (grades_data : List GradeEntry) : FacultyState × GradesOutcome :=
  match lookupA course_id s.courses with
  | none => (s, .courseNotFound)
  | some _ =>
    let processed :=
      if strStartsWith course_id "PF" then passFailProcess grades_data
      else letterProcess grades_data
    if processed.valid then
      let grades₀ :=
        if (lookupA course_id s.grades).isSome then s.grades
        else setA course_id [] s.grades
      let grades₁ := grades_data.foldl
        (fun m e => modifyA course_id (setA e.student_id e.grade) m) grades₀
      ({ s with grades := grades₁ },
       .submitted processed
         ("Grades submitted for " ++ toString grades_data.length ++
          " students in " ++ course_id))
    else (s, .invalidEntries processed)

/-- `FacultyService._on_student_enrolled` (`src/main.py` lines 587-595):
append the student to the roster only when the course already has a roster
and the student is not yet on it. -/
def on_student_enrolled (s : FacultyState) (student_id course_id : String) :
    FacultyState :=
  match lookupA course_id s.rosters with
  | none => s
  | some roster =>
    if student_id ∈ roster then s
    else { s with rosters := modifyA course_id (· ++ [student_id]) s.rosters }

/-- `FacultyService._on_student_dropped` (`src/main.py` lines 597-605):
remove the student's first roster occurrence only when the course has a
roster containing the student. -/
def on_student_dropped (s : FacultyState) (student_id course_id : String) :
    FacultyState :=
  match lookupA course_id s.rosters with
  | none => s
  | some roster =>
    if student_id ∈ roster then
      { s with rosters := modifyA course_id (·.erase student_id) s.rosters }
    else s

/-- The events published on the bus by the modelled endpoints
(`student_enrolled`, `student_dropped`, `grade_submitted`). -/
inductive BusEvent where
  | studentEnrolled (student_id course_id advisor_email : String)
  | studentDropped (student_id course_id : String)
  | gradeSubmitted (student_id course_id grade : String)
  deriving DecidableEq

/-- Dispatching one event to the faculty service's subscribed handlers
(it subscribes `_on_student_enrolled` to `student_enrolled` and
`_on_student_dropped` to `student_dropped`; every other event type has no
faculty handler, and the notification handlers only print). -/
def facultyHandleEvent (s : FacultyState) : BusEvent → FacultyState
  | .studentEnrolled sid cid _ => on_student_enrolled s sid cid
  | .studentDropped sid cid => on_student_dropped s sid cid
  | .gradeSubmitted _ _ _ => s

/-- Composed system state: the student service, the faculty service, and
the FIFO queue of the singleton event bus. -/
structure SysState where
  student : StudentState
  faculty : FacultyState
  queue : List BusEvent
  deriving DecidableEq

def sysSeed : SysState :=
  { student := studentSeed, faculty := facultySeed, queue := [] }

/-- A step of the composed system: an HTTP mutation against one of the
services (which enqueues events exactly when the source publishes them), or
the dispatcher thread delivering the queue's head event. -/
inductive SysOp where
  | enroll (student_id course_id : String)
  | drop (student_id course_id : String)
  | submitGrades (course_id : String) (grades_data : List GradeEntry)
  | dispatch
  deriving DecidableEq

def sysStep (s : SysState) : SysOp → SysState
  | .enroll sid cid =>
    match enroll_student s.student sid cid with
    | (st', .enrolled _ _) =>
      { s with student := st',
               queue := s.queue ++
                 [.studentEnrolled sid cid ("advisor_" ++ sid ++ "@university.edu")] }
    | (st', _) => { s with student := st' }
  | .drop sid cid =>
    match drop_course s.student sid cid with
    | (st', .dropped _) =>
      { s with student := st', queue := s.queue ++ [.studentDropped sid cid] }
    | (st', _) => { s with student := st' }
  | .submitGrades cid grades_data =>
    match submit_grades s.faculty cid grades_data with
    | (f', .submitted _ _) =>
      { s with faculty := f',
               queue := s.queue ++
                 grades_data.map (fun e => .gradeSubmitted e.student_id cid e.grade) }
    | (f', _) => { s with faculty := f' }
  | .dispatch =>
    match s.queue with
    | [] => s
    | e :: rest => { s with faculty := facultyHandleEvent s.faculty e, queue := rest }

def sysRun (ops : List SysOp) (s : SysState) : SysState :=
  ops.foldl sysStep s

/-- The invariant carried along every reachable composed state. -/
def SysInv (s : SysState) : Prop :=
  (∀ sid cid adv, BusEvent.studentEnrolled sid cid adv ∈ s.queue →
      (lookupA cid s.faculty.rosters).isSome = true) ∧
  (∀ cid r, lookupA cid s.faculty.rosters = some r → r.Nodup) ∧
  (∀ sid r, lookupA sid s.student.student_data = some r →
      "CS201" ∉ r.completed_courses) ∧
  (∀ c, lookupA "CS301" s.student.courses = some c →
      c.prerequisites = ["CS101", "CS201"]) ∧
  (∀ cid, (lookupA cid s.student.courses).isSome = true →
      cid = "CS101" ∨ cid = "CS201" ∨ cid = "CS301") ∧
  (lookupA "CS101" s.faculty.rosters).isSome = true ∧
  (lookupA "CS201" s.faculty.rosters).isSome = true

/-- The in-memory state owned by `AdminService`. -/
structure AdminState where
  courses : List (String × Course)
  deriving DecidableEq

/-- The seeded mock data of `AdminService.__init__` (`src/main.py` lines 623-627). -/
def adminSeed : AdminState :=
  { courses :=
      [("CS101", mkCourse "CS101" "Intro to Programming" "Dr. Smith" 30 25 []),
       ("CS201", mkCourse "CS201" "Data Structures" "Dr. Johnson" 25 20 []),
       ("CS301", mkCourse "CS301" "Algorithms" "Dr. Brown" 20 15 [])] }

/-- Outcome of `POST /course`. -/
inductive CreateOutcome where
  | duplicate
  | created (course : Course)
  deriving DecidableEq

/-- `POST /course` (`src/main.py` lines 643-690) for a payload whose fields
already carry the expected types (strings, an integer capacity, a string
list of prerequisites; non-integer capacities are coerced or defaulted by
the source and cannot be rejected either).  No bound is checked on
`capacity`: whatever integer arrives is stored. -/
def create_course (s : AdminState) (course_id name instructor : String)
    (capacity : Int) (prerequisites : List String) : AdminState × CreateOutcome :=
  if (lookupA course_id s.courses).isSome then (s, .duplicate)
  else
    let new_course := mkCourse course_id name instructor capacity 0 prerequisites
    ({ courses := setA course_id new_course s.courses }, .created new_course)

/-- `round(x * 100, 2)`-style rounding to two decimal places, over exact
rationals (the source computes on Python floats; the claims proved here do
not depend on the float/rational difference). -/
def roundTo2 (q : Rat) : Rat := ((round (q * 100) : Int) : Rat) / 100

/-- The course payload built by `StudentDTOFactory.create_response_dto`. -/
structure StudentCourseDTO where
  course_id : String
  name : String
  instructor : String
  available_seats : Int
  schedule : Schedule
  prerequisites : List String
  can_enroll : Bool
  deriving DecidableEq

/-- The input shapes `StudentDTOFactory.create_response_dto` distinguishes
via `isinstance`: a `Course`, a list of courses, or anything else. -/
inductive StudentDTOInput where
  | course (c : Course)
  | courseList (cs : List Course)
  | unsupported
  deriving DecidableEq

inductive StudentPayload where
  | course (dto : StudentCourseDTO)
  | courses (dtos : List StudentCourseDTO)
  | error (message : String)
  deriving DecidableEq

def studentCourseDto (c : Course) : StudentCourseDTO :=
  { course_id := c.course_id, name := c.name, instructor := c.instructor,
    available_seats := c.capacity - c.enrolled, schedule := c.schedule,
    prerequisites := c.prerequisites, can_enroll := true }

/-- `StudentDTOFactory.create_response_dto` (`src/main.py` lines 90-104);
the list branch applies the factory to each element, each a `Course`. -/
def studentCreateResponseDto : StudentDTOInput → StudentPayload
  | .course c => .course (studentCourseDto c)
  | .courseList cs => .courses (cs.map studentCourseDto)
  | .unsupported => .error "Unsupported data type"

structure FacultyCourseDTO where
  course_id : String
  name : String
  enrollment_count : Int
  capacity : Int
  enrollment_percentage : Rat
  deriving DecidableEq

/-- One `\x7bstudent_id, name\x7d` roster entry, as built by `get_roster`. -/
structure RosterEntry where
  student_id : String
  name : String
  deriving DecidableEq

/-- The input shapes `FacultyDTOFactory.create_response_dto` distinguishes:
a `Course`, a dict containing a `students` key (whose `course_id` key may be
absent), or anything else. -/
inductive FacultyDTOInput where
  | course (c : Course)
  | roster (course_id : Option String) (students : List RosterEntry)
  | unsupported
  deriving DecidableEq

inductive FacultyPayload where
  | course (dto : FacultyCourseDTO)
  | roster (course_id : Option String) (students : List RosterEntry)
      (total_enrolled : Nat)
  | error (message : String)
  deriving DecidableEq

deriving instance DecidableEq for Except

/-- `FacultyDTOFactory.create_response_dto` (`src/main.py` lines 106-122).
The course branch computes `round((enrolled / capacity) * 100, 2)` on
line 114; that division raises `ZeroDivisionError` exactly when the
course's capacity is 0, so the branch is fallible: the raising path is the
`Except.error` result and no payload is produced there. -/
def facultyCreateResponseDto : FacultyDTOInput → Except String FacultyPayload
  | .course c =>
    if c.capacity = 0 then .error "ZeroDivisionError: division by zero"
    else
      .ok (.course
        { course_id := c.course_id, name := c.name,
          enrollment_count := c.enrolled, capacity := c.capacity,
          enrollment_percentage :=
            roundTo2 ((c.enrolled : Rat) / (c.capacity : Rat) * 100) })
  | .roster cid students => .ok (.roster cid students students.length)
  | .unsupported => .ok (.error "Unsupported data type")

structure AdminCourseDTO where
  course_id : String
  name : String
  instructor : String
  capacity : Int
  enrolled : Int
  utilization_rate : Rat
  schedule : Schedule
  prerequisites : List String
  status : String
  deriving DecidableEq

/-- One row of the enrollment report's `data` list. -/
structure ReportRow where
  course_id : String
  name : String
  enrolled : Int
  capacity : Int
  utilization : Rat
  deriving DecidableEq

structure ReportSummary where
  total_courses : Nat
  total_capacity : Int
  total_enrolled : Int
  overall_utilization : Rat
  deriving DecidableEq

/-- The input shapes `AdminDTOFactory.create_response_dto` distinguishes:
a `Course`, a dict containing a `report_type` key, or anything else. -/
inductive AdminDTOInput where
  | course (c : Course)
  | report (report_type : String) (data : List ReportRow) (summary : ReportSummary)
  | unsupported
  deriving DecidableEq

inductive AdminPayload where
  | course (dto : AdminCourseDTO)
  | report (report_type : String) (generated_at : String) (data : List ReportRow)
      (summary : ReportSummary)
  | error (message : String)
  deriving DecidableEq

/-- `AdminDTOFactory.create_response_dto` (`src/main.py` lines 124-145).
The report branch calls `datetime.now().isoformat()`, modelled by the
explicit `now` argument: `now` is the wall-clock instant of the call.  The
course branch computes `round((enrolled / capacity) * 100, 2)` on line 133;
that division raises `ZeroDivisionError` exactly when the course's capacity
is 0, so the branch is fallible: the raising path is the `Except.error`
result and no payload is produced there. -/
def adminCreateResponseDto (now : String) : AdminDTOInput → Except String AdminPayload
  | .course c =>
    if c.capacity = 0 then .error "ZeroDivisionError: division by zero"
    else
      .ok (.course
        { course_id := c.course_id, name := c.name, instructor := c.instructor,
          capacity := c.capacity, enrolled := c.enrolled,
          utilization_rate :=
            roundTo2 ((c.enrolled : Rat) / (c.capacity : Rat) * 100),
          schedule := c.schedule, prerequisites := c.prerequisites,
          status := "active" })
  | .report rt data summary => .ok (.report rt now data summary)
  | .unsupported => .ok (.error "Unsupported data type")

/-- An event as seen by the bus dispatch loop: only its type string matters
for handler lookup; the payload is behind the handler abstraction. -/
structure BEvent where
  event_type : String
  deriving DecidableEq

/-- A subscriber callback over an abstract world state `σ`: it either
returns the mutated world or raises an exception message. -/
def Handler (σ : Type) : Type := BEvent → σ → Except String σ

/-- The log line printed when a handler raises
(`print(f"Error processing event ...")`, `src/main.py` line 75). -/
def errorLogLine (e : BEvent) (msg : String) : String :=
  "Error processing event " ++ e.event_type ++ ": " ++ msg

/-- The inner handler loop of `EventBus._start_event_processor`
(`src/main.py` lines 70-75): invoke each subscribed callback in order inside
a `try/except` that logs the exception and continues.  Returns the final
world together with one log slot per handler (`none` = the handler
returned normally, `some line` = it raised and the line was logged). -/
def runHandlers {σ : Type} : List (Handler σ) → BEvent → σ → σ × List (Option String)
  | [], _, s => (s, [])
  | h :: rest, e, s =>
    match h e s with
    | .ok s' =>
      let (s'', log) := runHandlers rest e s'
      (s'', none :: log)
    | .error msg =>
      let (s'', log) := runHandlers rest e s
      (s'', some (errorLogLine e msg) :: log)

/-- `EventBus.subscribe` (`src/main.py` lines 57-60): append the callback to
the list registered for the event type, creating the list if absent. -/
def subscribeBus {σ : Type} (subscribers : List (String × List (Handler σ)))
    (event_type : String) (h : Handler σ) : List (String × List (Handler σ)) :=
  match lookupA event_type subscribers with
  | none => setA event_type [h] subscribers
  | some hs => setA event_type (hs ++ [h]) subscribers

/-- Handlers the dispatch loop runs for an event: those registered for its
exact event type, none otherwise (`src/main.py` lines 70-71). -/
def handlersFor {σ : Type} (subscribers : List (String × List (Handler σ)))
    (e : BEvent) : List (Handler σ) :=
  (lookupA e.event_type subscribers).getD []

/-- The dispatch loop over a drained queue: deliver each event in FIFO
order, concatenating the per-event handler logs. -/
def processQueue {σ : Type} (subscribers : List (String × List (Handler σ))) :
    List BEvent → σ → σ × List (Option String)
  | [], s => (s, [])
  | e :: rest, s =>
    let (s', log) := runHandlers (handlersFor subscribers e) e s
    let (s'', log') := processQueue subscribers rest s'
    (s'', log ++ log')

/-! ### Association-list lemmas -/

theorem lookupA_modifyA {α : Type} (k k' : String) (f : α → α)
    (l : List (String × α)) :
    lookupA k' (modifyA k f l) =
      if k = k' then (lookupA k' l).map f else lookupA k' l := by
  induction l with
  | nil => by_cases h : k = k' <;> simp [lookupA, modifyA, h]
  | cons p rest ih =>
    obtain ⟨a, v⟩ := p
    by_cases hak : a = k
    · subst hak
      by_cases hk' : a = k'
      · subst hk'
        simp [modifyA, lookupA]
      · simp [modifyA, lookupA, hk']
    · by_cases hk' : a = k'
      · subst hk'
        have hne : ¬k = a := fun h => hak h.symm
        simp [modifyA, lookupA, hak, hne]
      · simp [modifyA, lookupA, hak, hk', ih]

theorem lookupA_setA {α : Type} (k k' : String) (v : α) (l : List (String × α)) :
    lookupA k' (setA k v l) = if k = k' then some v else lookupA k' l := by
  induction l with
  | nil => by_cases h : k = k' <;> simp [lookupA, setA, h]
  | cons p rest ih =>
    obtain ⟨a, v'⟩ := p
    by_cases hak : a = k
    · subst hak
      by_cases hk' : a = k'
      · subst hk'
        simp [setA, lookupA]
      · simp [setA, lookupA, hk']
    · by_cases hk' : a = k'
      · subst hk'
        have hne : ¬k = a := fun h => hak h.symm
        simp [setA, lookupA, hak, hne]
      · simp [setA, lookupA, hak, hk', ih]

theorem lookupA_isSome_modifyA {α : Type} (k k' : String) (f : α → α)
    (l : List (String × α)) :
    (lookupA k' (modifyA k f l)).isSome = (lookupA k' l).isSome := by
  rw [lookupA_modifyA]
  by_cases h : k = k' <;> simp [h, Option.isSome_map]

/-! ### Lemmas about `countIn` -/

theorem countIn_modifyA (cid sid : String) (f : StudentRecord → StudentRecord)
    (sd : List (String × StudentRecord)) (r : StudentRecord)
    (h : lookupA sid sd = some r) :
    countIn cid (modifyA sid f sd) + r.current_courses.count cid =
      countIn cid sd + (f r).current_courses.count cid := by
  induction sd with
  | nil => simp [lookupA] at h
  | cons p rest ih =>
    obtain ⟨a, v⟩ := p
    by_cases hak : a = sid
    · simp only [lookupA, if_pos hak] at h
      cases h
      simp [modifyA, countIn, hak]
      omega
    · simp only [lookupA, if_neg hak] at h
      have := ih h
      simp [modifyA, countIn, hak]
      omega

theorem countIn_setA_fresh (cid sid : String) (v : StudentRecord)
    (sd : List (String × StudentRecord)) (h : lookupA sid sd = none) :
    countIn cid (setA sid v sd) = countIn cid sd + v.current_courses.count cid := by
  induction sd with
  | nil => simp [setA, countIn]
  | cons p rest ih =>
    obtain ⟨a, v'⟩ := p
    by_cases hak : a = sid
    · simp [lookupA, hak] at h
    · simp only [lookupA, if_neg hak] at h
      simp [setA, countIn, hak, ih h]
      omega

theorem count_le_countIn (cid sid : String) (sd : List (String × StudentRecord))
    (r : StudentRecord) (h : lookupA sid sd = some r) :
    r.current_courses.count cid ≤ countIn cid sd := by
  induction sd with
  | nil => simp [lookupA] at h
  | cons p rest ih =>
    obtain ⟨a, v⟩ := p
    by_cases hak : a = sid
    · simp only [lookupA, if_pos hak] at h
      cases h
      simp [countIn]
    · simp only [lookupA, if_neg hak] at h
      have := ih h
      simp [countIn]
      omega

/-! ### Lemmas about `validate_all` -/

theorem validate_all_strategy_valid (sid cid : String) (ctx : VCtx) :
    ∀ strategies : List Strategy,
      (validate_all strategies sid cid ctx).all (·.valid) = true →
      ∀ st ∈ strategies, (runStrategy st sid cid ctx).valid = true := by
  intro strategies
  induction strategies with
  | nil => intro h st hst; simp at hst
  | cons st rest ih =>
    intro h st' hst'
    rw [validate_all] at h
    by_cases hv : (runStrategy st sid cid ctx).valid
    · rw [if_pos hv, List.all_cons] at h
      rcases List.mem_cons.mp hst' with h' | h'
      · subst h'; exact hv
      · exact ih (Bool.and_elim_right h) st' h'
    · rw [if_neg hv, List.all_cons, List.all_nil, Bool.and_true] at h
      exact absurd h hv

/-! ### The student-service capacity invariant (C1) -/

theorem capacity_ok_of_all_valid (sid cid : String) (ctx : VCtx) (course : Course)
    (hctx : ctx.course = some course) (strategies : List Strategy)
    (hmem : Strategy.capacity ∈ strategies)
    (hall : (validate_all strategies sid cid ctx).all (·.valid) = true) :
    course.enrolled < course.capacity := by
  have hv := validate_all_strategy_valid sid cid ctx strategies hall
    Strategy.capacity hmem
  unfold runStrategy capacityValidate at hv
  rw [hctx] at hv
  simp only at hv
  by_cases hge : course.capacity ≤ course.enrolled
  · rw [if_pos hge] at hv
    simp at hv
  · omega

/-- Case analysis on `POST /enroll`: either the state is returned unchanged
(unknown course or failed validation), or the request succeeded, in which
case the capacity validator had confirmed `enrolled < capacity` and the
state mutates exactly as the source does. -/
theorem enroll_student_cases (s : StudentState) (sid cid : String) :
    (enroll_student s sid cid).1 = s ∨
    ∃ course, lookupA cid s.courses = some course ∧
      course.enrolled < course.capacity ∧
      (enroll_student s sid cid).1 =
        { courses := modifyA cid (fun c => { c with enrolled := c.enrolled + 1 })
            s.courses,
          student_data := modifyA sid
            (fun r => { r with
              current_courses := r.current_courses ++ [cid],
              enrollment_history := r.enrollment_history ++
                [{ course_id := cid, action := "enrolled" }] })
            (if (lookupA sid s.student_data).isSome then s.student_data
             else setA sid freshRecord s.student_data) } := by
  unfold enroll_student
  cases hc : lookupA cid s.courses with
  | none => exact .inl rfl
  | some course =>
    simp only
    by_cases hall : (validate_all
        ((if course.prerequisites.isEmpty then [] else [Strategy.prerequisite]) ++
          [Strategy.capacity, Strategy.scheduleConflict]) sid cid
        { course := some course,
          student_completed_courses := completedOf s sid,
          student_current_courses := currentOf s sid }).all (·.valid)
    · rw [if_pos hall]
      refine .inr ⟨course, rfl, ?_, rfl⟩
      exact capacity_ok_of_all_valid sid cid _ course rfl _
        (List.mem_append_right _ (List.mem_cons_self _ _)) hall
    · rw [if_neg hall]
      exact .inl rfl

/-- Case analysis on `POST /drop`: either the state is returned unchanged,
or the student's record exists and lists the course, in which case the state
mutates exactly as the source does. -/
theorem drop_course_cases (s : StudentState) (sid cid : String) :
    (drop_course s sid cid).1 = s ∨
    ∃ course record, lookupA cid s.courses = some course ∧
      lookupA sid s.student_data = some record ∧
      cid ∈ record.current_courses ∧
      (drop_course s sid cid).1 =
        { courses := modifyA cid (fun c => { c with enrolled := c.enrolled - 1 })
            s.courses,
          student_data := modifyA sid
            (fun r => { r with current_courses := r.current_courses.erase cid })
            s.student_data } := by
  unfold drop_course
  cases hc : lookupA cid s.courses with
  | none => exact .inl rfl
  | some course =>
    simp only
    cases hr : lookupA sid s.student_data with
    | none => exact .inl rfl
    | some record =>
      simp only
      by_cases hmem : cid ∈ record.current_courses
      · rw [if_pos hmem]
        exact .inr ⟨course, record, rfl, rfl, hmem, rfl⟩
      · rw [if_neg hmem]
        exact .inl rfl

theorem enroll_preserves_inv (s : StudentState) (sid cid : String)
    (h : StudentInv s) : StudentInv (enroll_student s sid cid).1 := by
  rcases enroll_student_cases s sid cid with heq | ⟨course, hc, hcap, heq⟩
  · rw [heq]; exact h
  · rw [heq]
    intro cid' c' hl
    have hr₀ : ∃ r₀,
        lookupA sid (if (lookupA sid s.student_data).isSome then s.student_data
          else setA sid freshRecord s.student_data) = some r₀ ∧
        ∀ x, countIn x (if (lookupA sid s.student_data).isSome then s.student_data
          else setA sid freshRecord s.student_data) = countIn x s.student_data := by
      by_cases hs : (lookupA sid s.student_data).isSome
      · rcases Option.isSome_iff_exists.mp hs with ⟨r₀, hr₀⟩
        exact ⟨r₀, by rw [if_pos hs]; exact hr₀, fun x => by rw [if_pos hs]⟩
      · have hnone : lookupA sid s.student_data = none :=
          Option.not_isSome_iff_eq_none.mp hs
        refine ⟨freshRecord, ?_, ?_⟩
        · rw [if_neg hs, lookupA_setA, if_pos rfl]
        · intro x
          rw [if_neg hs, countIn_setA_fresh x sid freshRecord _ hnone]
          simp [freshRecord]
      -- the modified record exists in the base list either way
    rcases hr₀ with ⟨r₀, hr₀, hcount₀⟩
    rw [lookupA_modifyA] at hl
    by_cases hcc : cid = cid'
    · subst hcc
      rw [if_pos rfl, hc] at hl
      cases hl
      dsimp only
      have hkey := countIn_modifyA cid sid
        (fun r => { r with
          current_courses := r.current_courses ++ [cid],
          enrollment_history := r.enrollment_history ++
            [{ course_id := cid, action := "enrolled" }] }) _ r₀ hr₀
      have hone : (r₀.current_courses ++ [cid]).count cid =
          r₀.current_courses.count cid + 1 := by
        rw [List.count_append, List.count_singleton]
        simp
      simp only [hone] at hkey
      have hbound := h cid course hc
      have hc0 := hcount₀ cid
      constructor
      · simp only [hc0] at hkey
        have : countIn cid (modifyA sid (fun r => { r with
            current_courses := r.current_courses ++ [cid],
            enrollment_history := r.enrollment_history ++
              [{ course_id := cid, action := "enrolled" }] })
            (if (lookupA sid s.student_data).isSome then s.student_data
             else setA sid freshRecord s.student_data)) =
            countIn cid s.student_data + 1 := by omega
        rw [this]
        push_cast
        omega
      · omega
    · rw [if_neg hcc] at hl
      have hkey := countIn_modifyA cid' sid
        (fun r => { r with
          current_courses := r.current_courses ++ [cid],
          enrollment_history := r.enrollment_history ++
            [{ course_id := cid, action := "enrolled" }] }) _ r₀ hr₀
      have hsame : (r₀.current_courses ++ [cid]).count cid' =
          r₀.current_courses.count cid' := by
        rw [List.count_append, List.count_singleton]
        simp [hcc]
      simp only [hsame] at hkey
      have hbound := h cid' c' hl
      have hc0 := hcount₀ cid'
      constructor
      · have : countIn cid' (modifyA sid (fun r => { r with
            current_courses := r.current_courses ++ [cid],
            enrollment_history := r.enrollment_history ++
              [{ course_id := cid, action := "enrolled" }] })
            (if (lookupA sid s.student_data).isSome then s.student_data
             else setA sid freshRecord s.student_data)) =
            countIn cid' s.student_data := by omega
        rw [this]
        exact hbound.1
      · exact hbound.2

theorem drop_preserves_inv (s : StudentState) (sid cid : String)
    (h : StudentInv s) : StudentInv (drop_course s sid cid).1 := by
  rcases drop_course_cases s sid cid with heq | ⟨course, record, hc, hr, hmem, heq⟩
  · rw [heq]; exact h
  · rw [heq]
    intro cid' c' hl
    rw [lookupA_modifyA] at hl
    have hkey := countIn_modifyA cid' sid
      (fun r => { r with current_courses := r.current_courses.erase cid })
      s.student_data record hr
    by_cases hcc : cid = cid'
    · subst hcc
      rw [if_pos rfl, hc] at hl
      cases hl
      dsimp only
      have herase : (record.current_courses.erase cid).count cid =
          record.current_courses.count cid - 1 := List.count_erase_self cid _
      have hpos : 1 ≤ record.current_courses.count cid :=
        List.one_le_count_iff.mpr hmem
      have hle := count_le_countIn cid sid s.student_data record hr
      have hbound := h cid course hc
      simp only [herase] at hkey
      constructor
      · have : (countIn cid (modifyA sid (fun r => { r with
            current_courses := r.current_courses.erase cid })
            s.student_data) : Int) = (countIn cid s.student_data : Int) - 1 := by
          push_cast
          omega
        rw [this]
        push_cast at hbound ⊢
        omega
      · have hbound := h cid course hc
        omega
    · rw [if_neg hcc] at hl
      have herase : (record.current_courses.erase cid).count cid' =
          record.current_courses.count cid' :=
        List.count_erase_of_ne (fun hx => hcc hx.symm) _
      simp only [herase] at hkey
      have hbound := h cid' c' hl
      constructor
      · have : countIn cid' (modifyA sid (fun r => { r with
            current_courses := r.current_courses.erase cid })
            s.student_data) = countIn cid' s.student_data := by omega
        rw [this]
        exact hbound.1
      · exact hbound.2

theorem studentInv_seed : StudentInv studentSeed := by
  intro cid c h
  simp only [studentSeed, lookupA] at h
  split_ifs at h with h1 h2 h3
  all_goals cases h
  all_goals subst_vars
  all_goals decide

theorem runOps_preserves_inv (ops : List SOp) :
    ∀ s : StudentState, StudentInv s → StudentInv (runOps ops s) := by
  induction ops with
  | nil => intro s h; exact h
  | cons op rest ih =>
    intro s h
    rw [runOps, List.foldl_cons]
    have hstep : StudentInv (stepOp s op) := by
      cases op with
      | enroll sid cid => exact enroll_preserves_inv s sid cid h
      | drop sid cid => exact drop_preserves_inv s sid cid h
    exact ih (stepOp s op) hstep

/-- C1: starting from the seeded state, after any sequence of `POST /enroll`
and `POST /drop` requests, every course in the student service's course map
has an enrolled count within `[0, capacity]`: enroll increments only after
the capacity validator confirmed `enrolled < capacity`, and drop decrements
only when the student's `current_courses` lists the course. -/
theorem enrolled_always_within_capacity (ops : List SOp) (cid : String)
    (c : Course) (h : lookupA cid (runOps ops studentSeed).courses = some c) :
    0 ≤ c.enrolled ∧ c.enrolled ≤ c.capacity := by
  have hinv := runOps_preserves_inv ops studentSeed studentInv_seed cid c h
  have h0 : (0 : Int) ≤ (countIn cid (runOps ops studentSeed).student_data : Int) :=
    Int.ofNat_nonneg _
  exact ⟨le_trans h0 hinv.1, hinv.2⟩

/-- Witness for C1: after a fresh student enrolls in `CS101` and `STU001`
drops `CS201`, the `CS101` course holds 26 of 30 seats, within bounds. -/
theorem enrolled_always_within_capacity_witness :
    0 ≤ (mkCourse "CS101" "Intro to Programming" "Dr. Smith" 30 26 []).enrolled ∧
    (mkCourse "CS101" "Intro to Programming" "Dr. Smith" 30 26 []).enrolled ≤
      (mkCourse "CS101" "Intro to Programming" "Dr. Smith" 30 26 []).capacity :=
  enrolled_always_within_capacity
    [.enroll "STU002" "CS101", .drop "STU001" "CS201"] "CS101"
    (mkCourse "CS101" "Intro to Programming" "Dr. Smith" 30 26 []) (by decide)

/-! ### Preservation lemmas for the composed system (C5) -/

theorem enroll_record_completed (s : StudentState) (sid cid sid' : String)
    (r' : StudentRecord)
    (hl : lookupA sid' (enroll_student s sid cid).1.student_data = some r') :
    r'.completed_courses = [] ∨
    ∃ r, lookupA sid' s.student_data = some r ∧
      r'.completed_courses = r.completed_courses := by
  rcases enroll_student_cases s sid cid with heq | ⟨course, hc, hcap, heq⟩
  · rw [heq] at hl
    exact .inr ⟨r', hl, rfl⟩
  · rw [heq] at hl
    dsimp only at hl
    rw [lookupA_modifyA] at hl
    by_cases hss : sid = sid'
    · rw [if_pos hss] at hl
      cases h₀ : lookupA sid' (if (lookupA sid s.student_data).isSome
          then s.student_data else setA sid freshRecord s.student_data) with
      | none => rw [h₀] at hl; simp at hl
      | some r₀ =>
        rw [h₀] at hl
        simp only [Option.map_some'] at hl
        cases hl
        by_cases hs : (lookupA sid s.student_data).isSome
        · rw [if_pos hs] at h₀
          exact .inr ⟨r₀, h₀, rfl⟩
        · rw [if_neg hs, lookupA_setA, if_pos hss] at h₀
          cases h₀
          exact .inl rfl
    · rw [if_neg hss] at hl
      by_cases hs : (lookupA sid s.student_data).isSome
      · rw [if_pos hs] at hl
        exact .inr ⟨r', hl, rfl⟩
      · rw [if_neg hs, lookupA_setA, if_neg hss] at hl
        exact .inr ⟨r', hl, rfl⟩

theorem drop_record_completed (s : StudentState) (sid cid sid' : String)
    (r' : StudentRecord)
    (hl : lookupA sid' (drop_course s sid cid).1.student_data = some r') :
    ∃ r, lookupA sid' s.student_data = some r ∧
      r'.completed_courses = r.completed_courses := by
  rcases drop_course_cases s sid cid with heq | ⟨course, record, hc, hr, hmem, heq⟩
  · rw [heq] at hl
    exact ⟨r', hl, rfl⟩
  · rw [heq] at hl
    dsimp only at hl
    rw [lookupA_modifyA] at hl
    by_cases hss : sid = sid'
    · rw [if_pos hss] at hl
      cases h₀ : lookupA sid' s.student_data with
      | none => rw [h₀] at hl; simp at hl
      | some r₀ =>
        rw [h₀] at hl
        simp only [Option.map_some'] at hl
        cases hl
        exact ⟨r₀, rfl, rfl⟩
    · rw [if_neg hss] at hl
      exact ⟨r', hl, rfl⟩

theorem enroll_course_fields (s : StudentState) (sid cid cid' : String)
    (c' : Course)
    (hl : lookupA cid' (enroll_student s sid cid).1.courses = some c') :
    ∃ c, lookupA cid' s.courses = some c ∧
      c'.prerequisites = c.prerequisites := by
  rcases enroll_student_cases s sid cid with heq | ⟨course, hc, hcap, heq⟩
  · rw [heq] at hl
    exact ⟨c', hl, rfl⟩
  · rw [heq] at hl
    dsimp only at hl
    rw [lookupA_modifyA] at hl
    by_cases hcc : cid = cid'
    · rw [if_pos hcc] at hl
      cases h₀ : lookupA cid' s.courses with
      | none => rw [h₀] at hl; simp at hl
      | some c₀ =>
        rw [h₀] at hl
        simp only [Option.map_some'] at hl
        cases hl
        exact ⟨c₀, rfl, rfl⟩
    · rw [if_neg hcc] at hl
      exact ⟨c', hl, rfl⟩

theorem drop_course_fields (s : StudentState) (sid cid cid' : String)
    (c' : Course)
    (hl : lookupA cid' (drop_course s sid cid).1.courses = some c') :
    ∃ c, lookupA cid' s.courses = some c ∧
      c'.prerequisites = c.prerequisites := by
  rcases drop_course_cases s sid cid with heq | ⟨course, record, hc, hr, hmem, heq⟩
  · rw [heq] at hl
    exact ⟨c', hl, rfl⟩
  · rw [heq] at hl
    dsimp only at hl
    rw [lookupA_modifyA] at hl
    by_cases hcc : cid = cid'
    · rw [if_pos hcc] at hl
      cases h₀ : lookupA cid' s.courses with
      | none => rw [h₀] at hl; simp at hl
      | some c₀ =>
        rw [h₀] at hl
        simp only [Option.map_some'] at hl
        cases hl
        exact ⟨c₀, rfl, rfl⟩
    · rw [if_neg hcc] at hl
      exact ⟨c', hl, rfl⟩

/-- On success, `POST /enroll` found the course and, when it declares
prerequisites, the prerequisite validator confirmed that every one of them
lies in the student's completed courses. -/
theorem enroll_student_success_facts (s : StudentState) (sid cid : String)
    (st' : StudentState) (results : List VResult) (msg : String)
    (he : enroll_student s sid cid = (st', .enrolled results msg)) :
    ∃ course, lookupA cid s.courses = some course ∧
      (course.prerequisites ≠ [] →
        ∀ p ∈ course.prerequisites, p ∈ completedOf s sid) := by
  unfold enroll_student at he
  cases hc : lookupA cid s.courses with
  | none =>
    rw [hc] at he
    have h2 := congrArg Prod.snd he
    simp at h2
  | some course =>
    rw [hc] at he
    simp only at he
    refine ⟨course, rfl, ?_⟩
    intro hne p hp
    by_cases hall : (validate_all
        ((if course.prerequisites.isEmpty then [] else [Strategy.prerequisite]) ++
          [Strategy.capacity, Strategy.scheduleConflict]) sid cid
        { course := some course,
          student_completed_courses := completedOf s sid,
          student_current_courses := currentOf s sid }).all (·.valid)
    · have hmemp : Strategy.prerequisite ∈
          (if course.prerequisites.isEmpty then [] else [Strategy.prerequisite]) ++
            [Strategy.capacity, Strategy.scheduleConflict] := by
        rw [List.isEmpty_eq_false.mpr hne]
        simp
      have hv := validate_all_strategy_valid sid cid _ _ hall
        Strategy.prerequisite hmemp
      unfold runStrategy prerequisiteValidate at hv
      simp only at hv
      rw [if_neg (by simp [List.isEmpty_eq_false.mpr hne])] at hv
      by_cases hfe : (course.prerequisites.filter
          (fun q => !((completedOf s sid).contains q))).isEmpty
      · have hnil : course.prerequisites.filter
            (fun q => !((completedOf s sid).contains q)) = [] :=
          List.isEmpty_iff.mp hfe
        have := List.filter_eq_nil_iff.mp hnil p hp
        simpa using this
      · rw [if_neg hfe] at hv
        simp at hv
    · rw [if_neg hall] at he
      have := congrArg Prod.snd he
      simp at this

theorem submit_grades_preserves_rosters (s : FacultyState) (cid : String)
    (grades_data : List GradeEntry) :
    (submit_grades s cid grades_data).1.rosters = s.rosters := by
  unfold submit_grades
  cases hc : lookupA cid s.courses with
  | none => rfl
  | some c =>
    simp only
    by_cases hv : (if strStartsWith cid "PF" then passFailProcess grades_data
        else letterProcess grades_data).valid
    · rw [if_pos hv]
    · rw [if_neg hv]

theorem handleEvent_roster_isSome (f : FacultyState) (e : BusEvent) (k : String) :
    (lookupA k (facultyHandleEvent f e).rosters).isSome =
      (lookupA k f.rosters).isSome := by
  cases e with
  | studentEnrolled sid cid adv =>
    show (lookupA k (on_student_enrolled f sid cid).rosters).isSome =
      (lookupA k f.rosters).isSome
    unfold on_student_enrolled
    cases hr : lookupA cid f.rosters with
    | none => rfl
    | some roster =>
      dsimp only
      by_cases hmem : sid ∈ roster
      · rw [if_pos hmem]
      · rw [if_neg hmem]
        exact lookupA_isSome_modifyA cid k _ f.rosters
  | studentDropped sid cid =>
    show (lookupA k (on_student_dropped f sid cid).rosters).isSome =
      (lookupA k f.rosters).isSome
    unfold on_student_dropped
    cases hr : lookupA cid f.rosters with
    | none => rfl
    | some roster =>
      dsimp only
      by_cases hmem : sid ∈ roster
      · rw [if_pos hmem]
        exact lookupA_isSome_modifyA cid k _ f.rosters
      · rw [if_neg hmem]
  | gradeSubmitted sid cid g => rfl

theorem handleEvent_nodup (f : FacultyState) (e : BusEvent)
    (h : ∀ cid r, lookupA cid f.rosters = some r → r.Nodup) :
    ∀ cid r, lookupA cid (facultyHandleEvent f e).rosters = some r → r.Nodup := by
  cases e with
  | studentEnrolled sid cid adv =>
    show ∀ cid' r',
      lookupA cid' (on_student_enrolled f sid cid).rosters = some r' → r'.Nodup
    unfold on_student_enrolled
    cases hr : lookupA cid f.rosters with
    | none => exact h
    | some roster =>
      dsimp only
      by_cases hmem : sid ∈ roster
      · rw [if_pos hmem]
        exact h
      · rw [if_neg hmem]
        intro cid' r' hl
        dsimp only at hl
        rw [lookupA_modifyA] at hl
        by_cases hcc : cid = cid'
        · rw [if_pos hcc, ← hcc, hr] at hl
          simp only [Option.map_some'] at hl
          cases hl
          rw [List.nodup_append]
          refine ⟨h cid roster hr, List.nodup_singleton sid, ?_⟩
          intro a ha hb
          rw [List.mem_singleton] at hb
          exact hmem (hb ▸ ha)
        · rw [if_neg hcc] at hl
          exact h cid' r' hl
  | studentDropped sid cid =>
    show ∀ cid' r',
      lookupA cid' (on_student_dropped f sid cid).rosters = some r' → r'.Nodup
    unfold on_student_dropped
    cases hr : lookupA cid f.rosters with
    | none => exact h
    | some roster =>
      dsimp only
      by_cases hmem : sid ∈ roster
      · rw [if_pos hmem]
        intro cid' r' hl
        dsimp only at hl
        rw [lookupA_modifyA] at hl
        by_cases hcc : cid = cid'
        · rw [if_pos hcc, ← hcc, hr] at hl
          simp only [Option.map_some'] at hl
          cases hl
          exact (h cid roster hr).erase sid
        · rw [if_neg hcc] at hl
          exact h cid' r' hl
      · rw [if_neg hmem]
        exact h
  | gradeSubmitted sid cid g => exact h

theorem sysInv_seed : SysInv sysSeed := by
  refine ⟨?_, ?_, ?_, ?_, ?_, ?_, ?_⟩
  · intro sid cid adv hmem
    simp [sysSeed] at hmem
  · intro cid r h
    simp only [sysSeed, facultySeed, lookupA] at h
    split_ifs at h with h1 h2
    all_goals cases h
    all_goals decide
  · intro sid r h
    simp only [sysSeed, studentSeed, lookupA] at h
    split_ifs at h with h1
    all_goals cases h
    all_goals decide
  · intro c h
    rw [show lookupA "CS301" sysSeed.student.courses =
        some (mkCourse "CS301" "Algorithms" "Dr. Brown" 20 15 ["CS101", "CS201"])
      from rfl] at h
    cases h
    rfl
  · intro cid h
    simp only [sysSeed, studentSeed, lookupA] at h
    split_ifs at h with h1 h2 h3
    · exact .inl h1.symm
    · exact .inr (.inl h2.symm)
    · exact .inr (.inr h3.symm)
    · simp at h
  · decide
  · decide

theorem sysStep_preserves_inv (s : SysState) (op : SysOp) (h : SysInv s) :
    SysInv (sysStep s op) := by
  obtain ⟨h1, h2, h3, h4, h5, h6, h7⟩ := h
  cases op with
  | enroll sid cid =>
    cases he : enroll_student s.student sid cid with
    | mk st' out =>
      have hfst : (enroll_student s.student sid cid).1 = st' := by rw [he]
      have H3 : ∀ sid' r', lookupA sid' st'.student_data = some r' →
          "CS201" ∉ r'.completed_courses := by
        intro sid' r' hl
        rw [← hfst] at hl
        rcases enroll_record_completed s.student sid cid sid' r' hl with
          hnil | ⟨r, hr, hcomp⟩
        · rw [hnil]; simp
        · rw [hcomp]; exact h3 sid' r hr
      have H4 : ∀ c, lookupA "CS301" st'.courses = some c →
          c.prerequisites = ["CS101", "CS201"] := by
        intro c hl
        rw [← hfst] at hl
        rcases enroll_course_fields s.student sid cid "CS301" c hl with
          ⟨c0, hc0, hpre⟩
        rw [hpre]
        exact h4 c0 hc0
      have H5 : ∀ cid', (lookupA cid' st'.courses).isSome = true →
          cid' = "CS101" ∨ cid' = "CS201" ∨ cid' = "CS301" := by
        intro cid' hsome
        rcases Option.isSome_iff_exists.mp hsome with ⟨c', hc'⟩
        rw [← hfst] at hc'
        rcases enroll_course_fields s.student sid cid cid' c' hc' with ⟨c0, hc0, _⟩
        exact h5 cid' (by rw [hc0]; rfl)
      cases out with
      | enrolled results msg =>
        have hstep : sysStep s (.enroll sid cid) =
            { s with student := st',
                     queue := s.queue ++
                       [.studentEnrolled sid cid
                         ("advisor_" ++ sid ++ "@university.edu")] } := by
          simp only [sysStep]
          rw [he]
        rw [hstep]
        refine ⟨?_, h2, H3, H4, H5, h6, h7⟩
        intro sid0 cid0 adv0 hmem
        dsimp only at hmem ⊢
        rw [List.mem_append] at hmem
        rcases hmem with hold | hnew
        · exact h1 sid0 cid0 adv0 hold
        · rw [List.mem_singleton] at hnew
          injection hnew with e1 e2 e3
          rw [e2]
          rcases enroll_student_success_facts s.student sid cid st' results msg he
            with ⟨course, hc, hpre⟩
          rcases h5 cid (by rw [hc]; rfl) with h101 | h201 | h301
          · rw [h101]; exact h6
          · rw [h201]; exact h7
          · exfalso
            subst h301
            have hpre4 := h4 course hc
            have hne : course.prerequisites ≠ [] := by rw [hpre4]; simp
            have hmem201 : "CS201" ∈ completedOf s.student sid :=
              hpre hne "CS201" (by rw [hpre4]; simp)
            unfold completedOf at hmem201
            cases hsd : lookupA sid s.student.student_data with
            | none => rw [hsd] at hmem201; simp at hmem201
            | some r =>
              rw [hsd] at hmem201
              simp only [Option.map_some', Option.getD_some] at hmem201
              exact h3 sid r hsd hmem201
      | courseNotFound =>
        have hstep : sysStep s (.enroll sid cid) = { s with student := st' } := by
          simp only [sysStep]
          rw [he]
        rw [hstep]
        exact ⟨h1, h2, H3, H4, H5, h6, h7⟩
      | validationFailed results msg =>
        have hstep : sysStep s (.enroll sid cid) = { s with student := st' } := by
          simp only [sysStep]
          rw [he]
        rw [hstep]
        exact ⟨h1, h2, H3, H4, H5, h6, h7⟩
  | drop sid cid =>
    cases hd : drop_course s.student sid cid with
    | mk st' out =>
      have hfst : (drop_course s.student sid cid).1 = st' := by rw [hd]
      have H3 : ∀ sid' r', lookupA sid' st'.student_data = some r' →
          "CS201" ∉ r'.completed_courses := by
        intro sid' r' hl
        rw [← hfst] at hl
        rcases drop_record_completed s.student sid cid sid' r' hl with ⟨r, hr, hcomp⟩
        rw [hcomp]
        exact h3 sid' r hr
      have H4 : ∀ c, lookupA "CS301" st'.courses = some c →
          c.prerequisites = ["CS101", "CS201"] := by
        intro c hl
        rw [← hfst] at hl
        rcases drop_course_fields s.student sid cid "CS301" c hl with ⟨c0, hc0, hpre⟩
        rw [hpre]
        exact h4 c0 hc0
      have H5 : ∀ cid', (lookupA cid' st'.courses).isSome = true →
          cid' = "CS101" ∨ cid' = "CS201" ∨ cid' = "CS301" := by
        intro cid' hsome
        rcases Option.isSome_iff_exists.mp hsome with ⟨c', hc'⟩
        rw [← hfst] at hc'
        rcases drop_course_fields s.student sid cid cid' c' hc' with ⟨c0, hc0, _⟩
        exact h5 cid' (by rw [hc0]; rfl)
      have hQ : ∀ q', (∀ e, e ∈ q' → e ∈ s.queue ∨
            e = BusEvent.studentDropped sid cid) →
          SysInv { s with student := st', queue := q' } := by
        intro q' hq'
        refine ⟨?_, h2, H3, H4, H5, h6, h7⟩
        intro sid0 cid0 adv0 hmem
        dsimp only at hmem ⊢
        rcases hq' _ hmem with hold | hdrop
        · exact h1 sid0 cid0 adv0 hold
        · cases hdrop
      cases out with
      | dropped msg =>
        have hstep : sysStep s (.drop sid cid) =
            { s with student := st',
                     queue := s.queue ++ [.studentDropped sid cid] } := by
          simp only [sysStep]
          rw [hd]
        rw [hstep]
        refine hQ _ ?_
        intro e he'
        rw [List.mem_append, List.mem_singleton] at he'
        exact he'
      | courseNotFound =>
        have hstep : sysStep s (.drop sid cid) = { s with student := st' } := by
          simp only [sysStep]
          rw [hd]
        rw [hstep]
        exact hQ s.queue (fun e he' => .inl he')
      | notEnrolled =>
        have hstep : sysStep s (.drop sid cid) = { s with student := st' } := by
          simp only [sysStep]
          rw [hd]
        rw [hstep]
        exact hQ s.queue (fun e he' => .inl he')
  | submitGrades cid batch =>
    cases hg : submit_grades s.faculty cid batch with
    | mk f' out =>
      have hros : f'.rosters = s.faculty.rosters := by
        have := submit_grades_preserves_rosters s.faculty cid batch
        rw [hg] at this
        exact this
      have hF : ∀ q', (∀ e, e ∈ q' → e ∈ s.queue ∨
            ∃ g, g ∈ batch ∧
              e = BusEvent.gradeSubmitted g.student_id cid g.grade) →
          SysInv { s with faculty := f', queue := q' } := by
        intro q' hq'
        refine ⟨?_, ?_, h3, h4, h5, ?_, ?_⟩
        · intro sid0 cid0 adv0 hmem
          dsimp only at hmem ⊢
          rw [hros]
          rcases hq' _ hmem with hold | ⟨g, _, heq⟩
          · exact h1 sid0 cid0 adv0 hold
          · cases heq
        · intro cid0 r hl
          dsimp only at hl
          rw [hros] at hl
          exact h2 cid0 r hl
        · dsimp only
          rw [hros]
          exact h6
        · dsimp only
          rw [hros]
          exact h7
      cases out with
      | submitted processing msg =>
        have hstep : sysStep s (.submitGrades cid batch) =
            { s with faculty := f',
                     queue := s.queue ++
                       batch.map
                         (fun e => .gradeSubmitted e.student_id cid e.grade) } := by
          simp only [sysStep]
          rw [hg]
        rw [hstep]
        refine hF _ ?_
        intro e he'
        rw [List.mem_append] at he'
        rcases he' with hold | hnew
        · exact .inl hold
        · rcases List.mem_map.mp hnew with ⟨g, hg', heq⟩
          exact .inr ⟨g, hg', heq.symm⟩
      | courseNotFound =>
        have hstep : sysStep s (.submitGrades cid batch) =
            { s with faculty := f' } := by
          simp only [sysStep]
          rw [hg]
        rw [hstep]
        exact hF s.queue (fun e he' => .inl he')
      | invalidEntries processing =>
        have hstep : sysStep s (.submitGrades cid batch) =
            { s with faculty := f' } := by
          simp only [sysStep]
          rw [hg]
        rw [hstep]
        exact hF s.queue (fun e he' => .inl he')
  | dispatch =>
    cases hq : s.queue with
    | nil =>
      have hstep : sysStep s .dispatch = s := by
        simp only [sysStep]
        rw [hq]
      rw [hstep]
      exact ⟨h1, h2, h3, h4, h5, h6, h7⟩
    | cons e rest =>
      have hstep : sysStep s .dispatch =
          { s with faculty := facultyHandleEvent s.faculty e, queue := rest } := by
        simp only [sysStep]
        rw [hq]
      rw [hstep]
      refine ⟨?_, ?_, h3, h4, h5, ?_, ?_⟩
      · intro sid0 cid0 adv0 hmem
        dsimp only at hmem ⊢
        rw [handleEvent_roster_isSome]
        refine h1 sid0 cid0 adv0 ?_
        rw [hq]
        exact List.mem_cons_of_mem e hmem
      · intro cid0 r hl
        dsimp only at hl
        exact handleEvent_nodup s.faculty e h2 cid0 r hl
      · dsimp only
        rw [handleEvent_roster_isSome]
        exact h6
      · dsimp only
        rw [handleEvent_roster_isSome]
        exact h7

theorem sysRun_preserves_inv (ops : List SysOp) :
    ∀ s : SysState, SysInv s → SysInv (sysRun ops s) := by
  induction ops with
  | nil => intro s h; exact h
  | cons op rest ih =>
    intro s h
    rw [sysRun, List.foldl_cons]
    exact ih (sysStep s op) (sysStep_preserves_inv s op h)

/-! ### Theorems for the claims -/

/-! ### Theorems for the claims -/

/-- C8 counterexample: on a validation context that lacks a course, the
schedule-conflict validator returns invalid even though the student's
current-course count is below 5, refuting "valid in every other case". -/
theorem scheduleConflict_invalid_without_course :
    (scheduleConflictValidate "STU001" "CS101"
        { course := none, student_completed_courses := [],
          student_current_courses := [] }).valid = false ∧
    ([] : List String).length < 5 := by decide

/-- C8 (amended): the schedule-conflict validator returns valid exactly when
the context carries a course and the student's current-course count is below
5; it is invalid when the count is at least 5 or the course is missing. -/
theorem scheduleConflict_valid_iff (sid cid : String) (ctx : VCtx) :
    (scheduleConflictValidate sid cid ctx).valid = true ↔
      ctx.course.isSome = true ∧ ctx.student_current_courses.length < 5 := by
  unfold scheduleConflictValidate
  cases hc : ctx.course with
  | none => simp
  | some c =>
    by_cases h5 : 5 ≤ ctx.student_current_courses.length
    all_goals simp [h5]
    all_goals omega

/-- C2: `validate_all` runs the strategies in order and stops at the first
invalid result: the trace equals the valid results of the full run up to the
first invalid one, followed by that single invalid result when one exists;
and when enrollment fails validation, the surfaced message is the message of
the first invalid result of the trace. -/
theorem validate_all_short_circuits :
    (∀ (strategies : List Strategy) (sid cid : String) (ctx : VCtx),
        validate_all strategies sid cid ctx =
          ((strategies.map (fun st => runStrategy st sid cid ctx)).takeWhile
              (·.valid)) ++
            ((strategies.map (fun st => runStrategy st sid cid ctx)).dropWhile
                (·.valid)).take 1) ∧
    (∀ (s : StudentState) (sid cid : String) (results : List VResult)
        (msg : String),
        (enroll_student s sid cid).2 = .validationFailed results msg →
          ∃ r, results.find? (fun x => !x.valid) = some r ∧
            r.valid = false ∧ msg = r.message) := by
  constructor
  · intro strategies sid cid ctx
    induction strategies with
    | nil => simp [validate_all]
    | cons st rest ih =>
      rw [validate_all]
      by_cases hv : (runStrategy st sid cid ctx).valid
      · simp [hv, List.takeWhile_cons, List.dropWhile_cons, ih]
      · simp [hv, List.takeWhile_cons, List.dropWhile_cons]
  · intro s sid cid results msg h
    unfold enroll_student at h
    cases hc : lookupA cid s.courses with
    | none => rw [hc] at h; simp at h
    | some course =>
      rw [hc] at h
      simp only at h
      by_cases hall : (validate_all
          ((if course.prerequisites.isEmpty then [] else [Strategy.prerequisite]) ++
            [Strategy.capacity, Strategy.scheduleConflict]) sid cid
          { course := some course,
            student_completed_courses := completedOf s sid,
            student_current_courses := currentOf s sid }).all (·.valid)
      · rw [if_pos hall] at h
        simp at h
      · rw [if_neg hall] at h
        rw [show ∀ (a : StudentState) (b : EnrollOutcome), (a, b).2 = b
              from fun _ _ => rfl] at h
        rw [EnrollOutcome.validationFailed.injEq] at h
        obtain ⟨h1, h2⟩ := h
        rw [h1] at hall h2
        have hex : ∃ x ∈ results, (!x.valid) = true := by
          rcases List.all_eq_false.mp (Bool.eq_false_iff.mpr hall) with ⟨x, hx, hx'⟩
          exact ⟨x, hx, by simpa using hx'⟩
        have hsome : (results.find? (fun x => !x.valid)).isSome = true :=
          List.find?_isSome.mpr hex
        rcases Option.isSome_iff_exists.mp hsome with ⟨r, hr⟩
        refine ⟨r, hr, ?_, ?_⟩
        · have := List.find?_some hr
          simpa using this
        · rw [hr] at h2
          simp at h2
          exact h2.symm

/-- Witness for C2: a concrete failing enrollment (unknown student `STU002`
into `CS301`, whose prerequisites are unmet) surfaces the message of the
first invalid validation result. -/
theorem validate_all_short_circuits_witness :
    ∃ r, ([⟨false, "Missing prerequisites: CS101, CS201"⟩] :
        List VResult).find? (fun x => !x.valid) = some r ∧
      r.valid = false ∧ "Missing prerequisites: CS101, CS201" = r.message :=
  validate_all_short_circuits.2 studentSeed "STU002" "CS301"
    [⟨false, "Missing prerequisites: CS101, CS201"⟩]
    "Missing prerequisites: CS101, CS201" (by decide)

/-- C5: in every run of the composed system from the seeded state, when the
dispatcher delivers a `student_enrolled` event (head of the FIFO queue,
produced by a successful enrollment), the faculty roster for that course
contains the student immediately afterwards; and when it delivers a
`student_dropped` event (produced by a successful drop), the roster no
longer contains the student.  The quantification ranges over every course an
event can carry — including courses absent from the faculty roster map,
which no reachable successful enrollment targets. -/
theorem roster_eventually_consistent (ops : List SysOp) (sid cid adv : String) :
    ((sysRun ops sysSeed).queue.head? =
        some (.studentEnrolled sid cid adv) →
      ∃ r, lookupA cid
          (sysStep (sysRun ops sysSeed) .dispatch).faculty.rosters = some r ∧
        sid ∈ r) ∧
    ((sysRun ops sysSeed).queue.head? = some (.studentDropped sid cid) →
      ∀ r, lookupA cid
          (sysStep (sysRun ops sysSeed) .dispatch).faculty.rosters = some r →
        sid ∉ r) := by
  obtain ⟨h1, h2, h3, h4, h5, h6, h7⟩ := sysRun_preserves_inv ops sysSeed sysInv_seed
  constructor
  · intro hh
    cases hq : (sysRun ops sysSeed).queue with
    | nil => rw [hq] at hh; simp at hh
    | cons e rest =>
      rw [hq] at hh
      simp only [List.head?_cons, Option.some.injEq] at hh
      subst hh
      have hstep : sysStep (sysRun ops sysSeed) .dispatch =
          { sysRun ops sysSeed with
              faculty := facultyHandleEvent (sysRun ops sysSeed).faculty
                (.studentEnrolled sid cid adv),
              queue := rest } := by
        simp only [sysStep]
        rw [hq]
      rw [hstep]
      dsimp only
      have hsome : (lookupA cid
          (sysRun ops sysSeed).faculty.rosters).isSome = true :=
        h1 sid cid adv (by rw [hq]; exact List.mem_cons_self _ _)
      rcases Option.isSome_iff_exists.mp hsome with ⟨r, hr⟩
      show ∃ r', lookupA cid
          (on_student_enrolled (sysRun ops sysSeed).faculty sid cid).rosters =
          some r' ∧ sid ∈ r'
      unfold on_student_enrolled
      rw [hr]
      dsimp only
      by_cases hmem : sid ∈ r
      · rw [if_pos hmem]
        exact ⟨r, hr, hmem⟩
      · rw [if_neg hmem]
        dsimp only
        rw [lookupA_modifyA, if_pos rfl, hr]
        exact ⟨r ++ [sid], rfl, by simp⟩
  · intro hh
    cases hq : (sysRun ops sysSeed).queue with
    | nil => rw [hq] at hh; simp at hh
    | cons e rest =>
      rw [hq] at hh
      simp only [List.head?_cons, Option.some.injEq] at hh
      subst hh
      have hstep : sysStep (sysRun ops sysSeed) .dispatch =
          { sysRun ops sysSeed with
              faculty := facultyHandleEvent (sysRun ops sysSeed).faculty
                (.studentDropped sid cid),
              queue := rest } := by
        simp only [sysStep]
        rw [hq]
      rw [hstep]
      dsimp only
      show ∀ r, lookupA cid
          (on_student_dropped (sysRun ops sysSeed).faculty sid cid).rosters =
          some r → sid ∉ r
      unfold on_student_dropped
      cases hr : lookupA cid (sysRun ops sysSeed).faculty.rosters with
      | none =>
        dsimp only
        intro r hl
        rw [hr] at hl
        simp at hl
      | some r0 =>
        dsimp only
        by_cases hmem : sid ∈ r0
        · rw [if_pos hmem]
          intro r hl
          dsimp only at hl
          rw [lookupA_modifyA, if_pos rfl, hr] at hl
          simp only [Option.map_some'] at hl
          cases hl
          have hnd := h2 cid r0 hr
          intro hcontra
          rcases (hnd.mem_erase_iff).mp hcontra with ⟨hne, _⟩
          exact hne rfl
        · rw [if_neg hmem]
          intro r hl
          rw [hr] at hl
          cases hl
          exact hmem

/-- Witness for C5: a fresh student `STU009` enrolls in `CS101`; delivering
the pending `student_enrolled` event puts `STU009` on the `CS101` roster. -/
theorem roster_eventually_consistent_witness :
    ∃ r, lookupA "CS101"
        (sysStep (sysRun [.enroll "STU009" "CS101"] sysSeed)
          .dispatch).faculty.rosters = some r ∧ "STU009" ∈ r :=
  (roster_eventually_consistent [.enroll "STU009" "CS101"] "STU009" "CS101"
    "advisor_STU009@university.edu").1 (by decide)

/-- C3: enrolling in a known course that has prerequisites, as a student
missing at least one of them, fails with HTTP 400; the failure message lists
exactly the missing prerequisite ids joined by ", " (in prerequisite-list
order), and the whole service state — in particular the course's enrolled
count and the student's current courses — is unchanged. -/
theorem enroll_missing_prereqs (s : StudentState) (sid cid : String)
    (course : Course) (hc : lookupA cid s.courses = some course)
    (hne : course.prerequisites ≠ [])
    (hmiss : course.prerequisites.filter
        (fun p => !((completedOf s sid).contains p)) ≠ []) :
    enroll_student s sid cid =
      (s, .validationFailed
        [⟨false, "Missing prerequisites: " ++ String.intercalate ", "
            (course.prerequisites.filter
              (fun p => !((completedOf s sid).contains p)))⟩]
        ("Missing prerequisites: " ++ String.intercalate ", "
          (course.prerequisites.filter
            (fun p => !((completedOf s sid).contains p))))) ∧
    enrollStatus (enroll_student s sid cid).2 = 400 := by
  have hres : prerequisiteValidate sid cid
      { course := some course,
        student_completed_courses := completedOf s sid,
        student_current_courses := currentOf s sid } =
      ⟨false, "Missing prerequisites: " ++ String.intercalate ", "
        (course.prerequisites.filter
          (fun p => !((completedOf s sid).contains p)))⟩ := by
    unfold prerequisiteValidate
    simp only
    rw [if_neg (by simpa using hne), if_neg (by simpa using hmiss)]
  have hie : course.prerequisites.isEmpty = false := List.isEmpty_eq_false.mpr hne
  have hrv : validate_all
      [Strategy.prerequisite, Strategy.capacity, Strategy.scheduleConflict] sid cid
      { course := some course,
        student_completed_courses := completedOf s sid,
        student_current_courses := currentOf s sid } =
      [⟨false, "Missing prerequisites: " ++ String.intercalate ", "
        (course.prerequisites.filter
          (fun p => !((completedOf s sid).contains p)))⟩] := by
    rw [validate_all]
    simp only [runStrategy]
    rw [hres]
    simp
  have hmain : enroll_student s sid cid =
      (s, .validationFailed
        [⟨false, "Missing prerequisites: " ++ String.intercalate ", "
            (course.prerequisites.filter
              (fun p => !((completedOf s sid).contains p)))⟩]
        ("Missing prerequisites: " ++ String.intercalate ", "
          (course.prerequisites.filter
            (fun p => !((completedOf s sid).contains p))))) := by
    unfold enroll_student
    rw [hc]
    simp only [hie, Bool.false_eq_true, if_false, List.singleton_append]
    rw [hrv]
    simp [List.find?]
  exact ⟨hmain, by rw [hmain]; rfl⟩

/-- Witness for C3: student `STU002` (no record, hence no completed courses)
enrolling in seeded `CS301` (prerequisites `CS101`, `CS201`) is rejected
with the message listing both missing ids and an unchanged state. -/
theorem enroll_missing_prereqs_witness :
    enroll_student studentSeed "STU002" "CS301" =
      (studentSeed, .validationFailed
        [⟨false, "Missing prerequisites: " ++ String.intercalate ", "
            ((mkCourse "CS301" "Algorithms" "Dr. Brown" 20 15
              ["CS101", "CS201"]).prerequisites.filter
              (fun p => !((completedOf studentSeed "STU002").contains p)))⟩]
        ("Missing prerequisites: " ++ String.intercalate ", "
          ((mkCourse "CS301" "Algorithms" "Dr. Brown" 20 15
            ["CS101", "CS201"]).prerequisites.filter
            (fun p => !((completedOf studentSeed "STU002").contains p))))) ∧
    enrollStatus (enroll_student studentSeed "STU002" "CS301").2 = 400 :=
  enroll_missing_prereqs studentSeed "STU002" "CS301"
    (mkCourse "CS301" "Algorithms" "Dr. Brown" 20 15 ["CS101", "CS201"])
    (by decide) (by decide) (by decide)

/-- C10: the enroll endpoint performs no duplicate-enrollment check.
Concretely, seeded `STU001` already has `CS201` in `current_courses`, yet a
second `POST /enroll` for `CS201` succeeds, increments the course's enrolled
count from 20 to 21, and appends a second copy of `"CS201"` to the student's
`current_courses`. -/
theorem enroll_allows_duplicate_enrollment :
    (enroll_student studentSeed "STU001" "CS201").2 =
      .enrolled [⟨true, "Prerequisites satisfied"⟩, ⟨true, "Capacity available"⟩,
                 ⟨true, "No schedule conflicts"⟩]
        "Successfully enrolled in Data Structures" ∧
    (lookupA "CS201" (enroll_student studentSeed "STU001" "CS201").1.courses).map
        (fun c => c.enrolled) = some 21 ∧
    (lookupA "STU001"
        (enroll_student studentSeed "STU001" "CS201").1.student_data).map
        (fun r => r.current_courses) = some ["CS201", "CS201"] := by decide

/-- C9: `POST /course` performs no positivity check on `capacity` — an
integer capacity of 0 is neither rejected nor normalised but stored as-is,
violating the invariant `capacity : int > 0` and making the utilization
computation `enrolled / capacity` divide by zero on this course. -/
theorem create_course_accepts_zero_capacity :
    lookupA "CS000" (create_course adminSeed "CS000" "Seminar" "Dr. Null" 0
        []).1.courses = some (mkCourse "CS000" "Seminar" "Dr. Null" 0 0 []) ∧
    ¬(0 < (mkCourse "CS000" "Seminar" "Dr. Null" 0 0 []).capacity) := by decide

/-- C4: for a known course id, `submit_grades` selects the pass/fail scheme
exactly when the id starts with "PF" and the letter scheme otherwise; the
processing result's `invalid_entries` is exactly the sub-list of batch
entries whose grade lies outside the selected legal set; `valid` holds iff
that sub-list is empty; and when some entry is illegal the request returns
HTTP 400 with the stored grades map unchanged (no partial commit). -/
theorem submit_grades_scheme_and_atomicity (s : FacultyState) (cid : String)
    (grades_data : List GradeEntry) (c : Course)
    (hc : lookupA cid s.courses = some c) :
    ∃ p, outcomeProcessed (submit_grades s cid grades_data).2 = some p ∧
      p.scheme = (if strStartsWith cid "PF" then "pass_fail" else "letter") ∧
      p.invalid_entries = grades_data.filter (fun g =>
        !((if strStartsWith cid "PF" then passFailVALID
           else letterVALID).contains g.grade)) ∧
      (p.valid = true ↔ grades_data.filter (fun g =>
        !((if strStartsWith cid "PF" then passFailVALID
           else letterVALID).contains g.grade)) = []) ∧
      (grades_data.filter (fun g =>
          !((if strStartsWith cid "PF" then passFailVALID
             else letterVALID).contains g.grade)) ≠ [] →
        gradesStatus (submit_grades s cid grades_data).2 = 400 ∧
        (submit_grades s cid grades_data).1.grades = s.grades) := by
  unfold submit_grades
  rw [hc]
  simp only
  by_cases hpf : strStartsWith cid "PF"
  · rw [if_pos hpf]
    simp only [if_pos hpf]
    by_cases hval : (passFailProcess grades_data).valid
    · rw [if_pos hval]
      refine ⟨passFailProcess grades_data, rfl, rfl, rfl, ?_, ?_⟩
      · unfold passFailProcess at hval ⊢
        simp only at hval ⊢
        simpa [List.length_eq_zero] using hval
      · intro hbad
        exfalso
        apply hbad
        unfold passFailProcess at hval
        simpa [List.length_eq_zero] using hval
    · rw [if_neg hval]
      refine ⟨passFailProcess grades_data, rfl, rfl, rfl, ?_, fun _ => ⟨rfl, rfl⟩⟩
      unfold passFailProcess at hval ⊢
      simp only at hval ⊢
      simpa [List.length_eq_zero] using hval
  · rw [if_neg hpf]
    simp only [if_neg hpf]
    by_cases hval : (letterProcess grades_data).valid
    · rw [if_pos hval]
      refine ⟨letterProcess grades_data, rfl, rfl, rfl, ?_, ?_⟩
      · unfold letterProcess at hval ⊢
        simp only at hval ⊢
        simpa [List.length_eq_zero] using hval
      · intro hbad
        exfalso
        apply hbad
        unfold letterProcess at hval
        simpa [List.length_eq_zero] using hval
    · rw [if_neg hval]
      refine ⟨letterProcess grades_data, rfl, rfl, rfl, ?_, fun _ => ⟨rfl, rfl⟩⟩
      unfold letterProcess at hval ⊢
      simp only at hval ⊢
      simpa [List.length_eq_zero] using hval

/-- Witness for C4: a batch for seeded `CS101` (letter scheme) containing
the illegal grade "Z" yields an invalid processing result carrying exactly
that entry, HTTP 400, and an unchanged (empty) grades store. -/
theorem submit_grades_scheme_and_atomicity_witness :
    ∃ p, outcomeProcessed
        (submit_grades facultySeed "CS101" [⟨"STU001", "Z"⟩]).2 = some p ∧
      p.scheme = (if strStartsWith "CS101" "PF" then "pass_fail" else "letter") ∧
      p.invalid_entries = ([⟨"STU001", "Z"⟩] : List GradeEntry).filter (fun g =>
        !((if strStartsWith "CS101" "PF" then passFailVALID
           else letterVALID).contains g.grade)) ∧
      (p.valid = true ↔ ([⟨"STU001", "Z"⟩] : List GradeEntry).filter (fun g =>
        !((if strStartsWith "CS101" "PF" then passFailVALID
           else letterVALID).contains g.grade)) = []) ∧
      (([⟨"STU001", "Z"⟩] : List GradeEntry).filter (fun g =>
          !((if strStartsWith "CS101" "PF" then passFailVALID
             else letterVALID).contains g.grade)) ≠ [] →
        gradesStatus (submit_grades facultySeed "CS101" [⟨"STU001", "Z"⟩]).2 = 400 ∧
        (submit_grades facultySeed "CS101" [⟨"STU001", "Z"⟩]).1.grades =
          facultySeed.grades) :=
  submit_grades_scheme_and_atomicity facultySeed "CS101" [⟨"STU001", "Z"⟩]
    (mkCourse "CS101" "Intro to Programming" "Dr. Smith" 30 25 []) (by decide)

/-- C6 counterexample: the admin factory's report branch embeds the
wall-clock timestamp (`datetime.now().isoformat()`, modelled by the `now`
argument) into `generated_at`, so two calls on the same report input at
different instants yield different payloads — the factory is not a pure
projection of its input. -/
theorem admin_report_dto_not_reproducible :
    adminCreateResponseDto "2024-01-01T00:00:00"
        (.report "enrollment_summary" [] ⟨0, 0, 0, 0⟩) ≠
      adminCreateResponseDto "2024-01-01T00:00:01"
        (.report "enrollment_summary" [] ⟨0, 0, 0, 0⟩) := by decide

/-- C6 (amended): the student factory is a pure total projection, and the
faculty and admin factories are deterministic — on every non-report input
the result does not depend on the call instant, so repeated calls on the
same input agree — and every factory returns the explicit error payload
(rather than raising) on an unsupported input shape.  Two deviations
remain: the admin factory's report branch breaks reproducibility by
embedding `generated_at`, and the faculty and admin course branches raise
`ZeroDivisionError` instead of returning a payload on a course whose
capacity is 0 (reachable via `POST /course`), returning a payload exactly
when the capacity is nonzero. -/
theorem dto_factories_pure_except_report :
    (∀ (t₁ t₂ : String) (d : AdminDTOInput),
        (∀ rt rows summ, d ≠ .report rt rows summ) →
        adminCreateResponseDto t₁ d = adminCreateResponseDto t₂ d) ∧
    (∀ t, adminCreateResponseDto t .unsupported =
        .ok (.error "Unsupported data type")) ∧
    studentCreateResponseDto .unsupported = .error "Unsupported data type" ∧
    facultyCreateResponseDto .unsupported = .ok (.error "Unsupported data type") ∧
    (∀ (t : String) (c : Course), c.capacity = 0 →
        adminCreateResponseDto t (.course c) =
          .error "ZeroDivisionError: division by zero" ∧
        facultyCreateResponseDto (.course c) =
          .error "ZeroDivisionError: division by zero") ∧
    (∀ (t : String) (c : Course), c.capacity ≠ 0 →
        (adminCreateResponseDto t (.course c)).isOk = true ∧
        (facultyCreateResponseDto (.course c)).isOk = true) := by
  refine ⟨?_, fun t => rfl, rfl, rfl, ?_, ?_⟩
  · intro t₁ t₂ d hd
    cases d with
    | course c => rfl
    | report rt rows summ => exact absurd rfl (hd rt rows summ)
    | unsupported => rfl
  · intro t c h0
    constructor
    · unfold adminCreateResponseDto
      dsimp only
      rw [if_pos h0]
    · unfold facultyCreateResponseDto
      dsimp only
      rw [if_pos h0]
  · intro t c h0
    constructor
    · unfold adminCreateResponseDto
      dsimp only
      rw [if_neg h0]
      rfl
    · unfold facultyCreateResponseDto
      dsimp only
      rw [if_neg h0]
      rfl

/-- Witness for C6's amended theorem: on a capacity-30 `Course` input the
admin factory yields the same result at two different call instants and
returns a payload, while on a capacity-0 course it raises
`ZeroDivisionError` instead of producing a payload. -/
theorem dto_factories_pure_except_report_witness :
    adminCreateResponseDto "2024-01-01T00:00:00"
        (.course (mkCourse "CS101" "Intro to Programming" "Dr. Smith" 30 25 [])) =
      adminCreateResponseDto "2024-01-01T00:00:01"
        (.course (mkCourse "CS101" "Intro to Programming" "Dr. Smith" 30 25 [])) ∧
    adminCreateResponseDto "2024-01-01T00:00:00"
        (.course (mkCourse "CS000" "Seminar" "Dr. Null" 0 0 [])) =
      .error "ZeroDivisionError: division by zero" ∧
    (adminCreateResponseDto "2024-01-01T00:00:00"
        (.course (mkCourse "CS101" "Intro to Programming" "Dr. Smith" 30 25
          []))).isOk = true :=
  ⟨dto_factories_pure_except_report.1 "2024-01-01T00:00:00" "2024-01-01T00:00:01"
    (.course (mkCourse "CS101" "Intro to Programming" "Dr. Smith" 30 25 []))
    (fun rt rows summ h => AdminDTOInput.noConfusion h),
   (dto_factories_pure_except_report.2.2.2.2.1 "2024-01-01T00:00:00"
     (mkCourse "CS000" "Seminar" "Dr. Null" 0 0 []) rfl).1,
   (dto_factories_pure_except_report.2.2.2.2.2 "2024-01-01T00:00:00"
     (mkCourse "CS101" "Intro to Programming" "Dr. Smith" 30 25 [])
     (by decide)).1⟩

/-- C7: the dispatch loop invokes every subscribed handler exactly once per
event, in registration order, and a raising handler is caught and logged:
dispatch is a total function into the final world plus one log slot per
handler (so no exception reaches the publisher), delivery composes over both
handler lists and event lists (a failure never prevents later handlers or
later events), a raising handler leaves the world exactly as the remaining
handlers compute it while contributing the logged error line, and
subscribing appends to the handler list in registration order. -/
theorem event_dispatch_isolates_failures :
    (∀ (σ : Type) (hs : List (Handler σ)) (e : BEvent) (s : σ),
        (runHandlers hs e s).2.length = hs.length) ∧
    (∀ (σ : Type) (hs₁ hs₂ : List (Handler σ)) (e : BEvent) (s : σ),
        runHandlers (hs₁ ++ hs₂) e s =
          ((runHandlers hs₂ e (runHandlers hs₁ e s).1).1,
           (runHandlers hs₁ e s).2 ++ (runHandlers hs₂ e (runHandlers hs₁ e s).1).2)) ∧
    (∀ (σ : Type) (subs : List (String × List (Handler σ))) (es₁ es₂ : List BEvent)
        (s : σ),
        processQueue subs (es₁ ++ es₂) s =
          ((processQueue subs es₂ (processQueue subs es₁ s).1).1,
           (processQueue subs es₁ s).2 ++
             (processQueue subs es₂ (processQueue subs es₁ s).1).2)) ∧
    (∀ (σ : Type) (h : Handler σ) (hs : List (Handler σ)) (e : BEvent) (s : σ)
        (msg : String),
        h e s = .error msg →
          (runHandlers (h :: hs) e s).1 = (runHandlers hs e s).1 ∧
          (runHandlers (h :: hs) e s).2 =
            some (errorLogLine e msg) :: (runHandlers hs e s).2) ∧
    (∀ (σ : Type) (subs : List (String × List (Handler σ))) (et : String)
        (h : Handler σ),
        handlersFor (subscribeBus subs et h) ⟨et⟩ = handlersFor subs ⟨et⟩ ++ [h]) := by
  refine ⟨?_, ?_, ?_, ?_, ?_⟩
  · intro σ hs e
    induction hs with
    | nil => intro s; simp [runHandlers]
    | cons h rest ih =>
      intro s
      rw [runHandlers]
      cases h e s with
      | ok s' => simp [ih s']
      | error msg => simp [ih s]
  · intro σ hs₁ hs₂ e
    induction hs₁ with
    | nil => intro s; simp [runHandlers]
    | cons h rest ih =>
      intro s
      rw [List.cons_append, runHandlers, runHandlers]
      cases h e s with
      | ok s' => simp [ih s']
      | error msg => simp [ih s]
  · intro σ subs es₁ es₂
    induction es₁ with
    | nil => intro s; simp [processQueue]
    | cons e rest ih =>
      intro s
      rw [List.cons_append, processQueue, processQueue]
      simp [ih]
  · intro σ h hs e s msg hmsg
    rw [runHandlers, hmsg]
    exact ⟨rfl, rfl⟩
  · intro σ subs et h
    unfold subscribeBus handlersFor
    cases hl : lookupA et subs with
    | none => simp [lookupA_setA, hl]
    | some hs => simp [lookupA_setA, hl]

/-- Witness for C7: a concrete raising handler over `Nat` world state is
logged and skipped, leaving the world as the (empty) remaining handler list
computes it. -/
theorem event_dispatch_isolates_failures_witness :
    (runHandlers [fun (_ : BEvent) (_ : Nat) => Except.error "boom"]
        ⟨"student_enrolled"⟩ 0).1 =
      (runHandlers ([] : List (Handler Nat)) ⟨"student_enrolled"⟩ 0).1 ∧
    (runHandlers [fun (_ : BEvent) (_ : Nat) => Except.error "boom"]
        ⟨"student_enrolled"⟩ 0).2 =
      some (errorLogLine ⟨"student_enrolled"⟩ "boom") ::
        (runHandlers ([] : List (Handler Nat)) ⟨"student_enrolled"⟩ 0).2 :=
  event_dispatch_isolates_failures.2.2.2.1 Nat
    (fun _ _ => Except.error "boom") [] ⟨"student_enrolled"⟩ 0 "boom" rfl

end NexusEnroll
